import Mathlib

/-!
Verification of the iptv channel pipeline: a shallow embedding of the
channel-grouping logic (`arrange_channel.py`), the manifest parser
(`parse.py`) and the re-check repair pass (`re_check.py`), together with
theorems settling the specification claims about them.

Strings are modelled by `String`; all character-level scanning is done
structurally over `String.data` so that every definition evaluates by
kernel reduction. Network probing is modelled by a boolean oracle on
endpoint URLs (status 200 after redirects = `true`).
-/

namespace IPTV

/-- A childlist record as built by `arrange_channels`
(`src/arrange_channel.py`): the `source_url`, `stream_url` and
`attributes` fields of one channel entry. Attribute maps are Python
dicts in insertion order, modelled as association lists. -/
structure Rec where
  source_url : String
  stream_url : String
  attributes : List (String × String)
deriving DecidableEq, Repr

/-- One entry of `channels.json` / `playable_channels.json`: the value
part of the input mapping consumed by `arrange_channels` and produced by
`parse_m3u_to_json` (`src/parse.py`). -/
structure ChannelInfo where
  source_url : String
  channel_name : String
  stream_url : String
  attributes : List (String × String)
deriving DecidableEq, Repr

/-- A channel group as built by `arrange_channels`: the primary entry
fields plus the `childlist` of alternates. -/
structure Group where
  source_url : String
  channel_name : String
  stream_url : String
  attributes : List (String × String)
  childlist : List Rec
deriving DecidableEq, Repr

/-- The record held in the primary slot of a group. -/
def Group.primaryRec (g : Group) : Rec :=
  ⟨g.source_url, g.stream_url, g.attributes⟩

/-- Forget the channel name of an input entry, keeping the record fields
stored in a childlist. -/
def ChannelInfo.toRec (ci : ChannelInfo) : Rec :=
  ⟨ci.source_url, ci.stream_url, ci.attributes⟩

/-- Python `s.startswith(p)`, structurally over the character lists. -/
def strStartsWith (s p : String) : Bool :=
  p.data.isPrefixOf s.data

/-- Python `c in s` for a single character. -/
def strContainsChar (s : String) (c : Char) : Bool :=
  s.data.contains c

/-- The four endpoint priority classes tested by `arrange_channels`
(`src/arrange_channel.py` lines 54-84): class 1 is
`stream_url.startswith("https://") and "[" not in stream_url`, class 2
the same with `http://`, classes 3 and 4 the bracketed variants. The
bracket test is over the whole URL string, exactly as in the source. -/
def matchesClass (c : Nat) (u : String) : Bool :=
  match c with
  | 1 => strStartsWith u "https://" && !(strContainsChar u '[')
  | 2 => strStartsWith u "http://" && !(strContainsChar u '[')
  | 3 => strStartsWith u "https://" && strContainsChar u '['
  | 4 => strStartsWith u "http://" && strContainsChar u '['
  | _ => false

/-- One pass of `for entry in all_entries: if p(entry): best = entry; break`,
returning the position together with the first entry satisfying `p`. -/
def scanFirst (p : Rec → Bool) : List Rec → Option (Nat × Rec)
  | [] => none
  | e :: es =>
    if p e then some (0, e)
    else (scanFirst p es).map (fun q => (q.1 + 1, q.2))

/-- The four sequential passes of `arrange_channels`: the class-1 pass
over the whole entry list, then class 2, then 3, then 4; the first pass
that finds an entry wins (`src/arrange_channel.py` lines 52-84). -/
def bestEntry (es : List Rec) : Option (Nat × Rec) :=
  (scanFirst (fun e => matchesClass 1 e.stream_url) es).orElse fun _ =>
  (scanFirst (fun e => matchesClass 2 e.stream_url) es).orElse fun _ =>
  (scanFirst (fun e => matchesClass 3 e.stream_url) es).orElse fun _ =>
  scanFirst (fun e => matchesClass 4 e.stream_url) es

/-- The entries of a group in original first-seen order: the primary
slot first, then the childlist (`all_entries = [channel_group] +
channel_group["childlist"]`). -/
def allEntries (g : Group) : List Rec :=
  g.primaryRec :: g.childlist

/-- The per-group post-processing of `arrange_channels`
(`src/arrange_channel.py` lines 47-102). `best_entry != channel_group`
is Python dict value equality; a childlist dict can never equal the
group dict (their key sets differ), so the swap is skipped exactly when
the winning entry sits at position 0 (the primary slot itself). On a
swap the old primary record is appended to the childlist, the winner's
fields are installed, and every childlist record whose `stream_url`
equals the winner's is filtered out. -/
def arrangeGroup (g : Group) : Group :=
  match bestEntry (allEntries g) with
  | none => g
  | some (0, _) => g
  | some (_ + 1, best) =>
    { g with
      source_url := best.source_url
      stream_url := best.stream_url
      attributes := best.attributes
      childlist := (g.childlist ++ [g.primaryRec]).filter
        (fun e => e.stream_url != best.stream_url) }

/-- One step of the grouping loop of `arrange_channels`
(`src/arrange_channel.py` lines 25-43): if a group with this
`channel_name` exists the entry is appended to its childlist, otherwise
a new group with an empty childlist is appended (Python dict insertion
order). -/
def addToGroup (ci : ChannelInfo) : List Group → List Group
  | [] => [⟨ci.source_url, ci.channel_name, ci.stream_url, ci.attributes, []⟩]
  | g :: gs =>
    if g.channel_name == ci.channel_name then
      { g with childlist := g.childlist ++ [ci.toRec] } :: gs
    else
      g :: addToGroup ci gs

/-- The grouping phase of `arrange_channels`: fold the input entries, in
mapping order, into name-keyed groups. -/
def groupChannels (cis : List ChannelInfo) : List Group :=
  cis.foldl (fun gs ci => addToGroup ci gs) []

/-- `arrange_channels` (`src/arrange_channel.py`): group by channel
name, then run the priority post-processing on every group. The file
I/O wrapping is not modelled; the input is the entry mapping in
insertion order and the output the grouped mapping in insertion
order. -/
def arrange_channels (cis : List ChannelInfo) : List Group :=
  (groupChannels cis).map arrangeGroup

/-! ### Manifest parser (`src/parse.py`) -/

/-- Python `str.strip()`: drop whitespace at both ends of a character
list. -/
def trimList (l : List Char) : List Char :=
  ((l.dropWhile Char.isWhitespace).reverse.dropWhile Char.isWhitespace).reverse

/-- The characters after the last `,` of the list, or `none` when the
list contains no comma. Scanning from the front, a match further right
takes precedence. -/
def afterLastComma : List Char → Option (List Char)
  | [] => none
  | c :: cs =>
    match afterLastComma cs with
    | some r => some r
    | none => if c = ',' then some cs else none

/-- `extract_channel_name` (`src/parse.py` lines 95-101):
`re.search(r',([^,]+)$', line)` matches exactly when the segment after
the last comma is nonempty, and group 1 is that segment; on a match the
stripped segment is returned, otherwise the sentinel `"未知频道"`. -/
def extract_channel_name (line : String) : String :=
  match afterLastComma line.data with
  | some rest => if rest.isEmpty then "未知频道" else ⟨trimList rest⟩
  | none => "未知频道"

/-- The remainder of the second list after the first (leftmost)
occurrence of `marker`, or `none` when `marker` does not occur. -/
def afterFirst (marker : List Char) : List Char → Option (List Char)
  | [] => if marker.isEmpty then some [] else none
  | c :: cs =>
    if marker.isPrefixOf (c :: cs) then some ((c :: cs).drop marker.length)
    else afterFirst marker cs

/-- One pattern of `extract_attributes`:
`re.search(key + '="([^"]*)"', line)`. The literal part only matches at
occurrences of `key="`; at the leftmost one, `[^"]*` runs to the next
double quote, which must exist for the whole pattern to match (and if
no quote follows the leftmost occurrence, no later occurrence of the
marker — which itself contains a quote — can exist either). -/
def searchAttr (key : String) (line : String) : Option String :=
  match afterFirst (key.data ++ [ '=', '"' ]) line.data with
  | none => none
  | some rest =>
    if rest.contains '"' then some ⟨rest.takeWhile (fun c => c != '"')⟩
    else none

/-- The closed key set of `extract_attributes`, in the iteration order
of the `patterns` dict. -/
def attrKeys : List String := ["tvg-id", "tvg-name", "tvg-logo", "group-title"]

/-- `extract_attributes` (`src/parse.py` lines 103-119): for each of the
four recognized keys, record the first `key="value"` token of the line
when present; the resulting dict holds the matched keys in pattern
order. -/
def extract_attributes (line : String) : List (String × String) :=
  attrKeys.filterMap (fun k => (searchAttr k line).map (fun v => (k, v)))

/-- The pending channel info held between a metadata line and its
endpoint line (`current_channel_info` in `parse_m3u_to_json`). -/
structure PendInfo where
  name : String
  attributes : List (String × String)
deriving DecidableEq, Repr

/-- The loop state of `parse_m3u_to_json`: the pending metadata,
`channel_index`, and the entries emitted so far in insertion order. -/
structure ParseState where
  pending : Option PendInfo
  idx : Nat
  entries : List ChannelInfo
deriving DecidableEq, Repr

/-- One iteration of the parse loop (`src/parse.py` lines 38-62): strip
the line; skip it when blank; on a `#EXTINF` line set the pending info;
on a line starting with `http`, if a pending info exists emit one entry
and clear the pending state, otherwise ignore the line; ignore every
other line. -/
def parseLineStripped (srcUrl : String) (st : ParseState) (line : List Char) :
    ParseState :=
  if line.isEmpty then st
  else if ("#EXTINF".data).isPrefixOf line then
    ⟨some ⟨extract_channel_name ⟨line⟩, extract_attributes ⟨line⟩⟩, st.idx, st.entries⟩
  else if ("http".data).isPrefixOf line then
    match st.pending with
    | some info =>
      ⟨none, st.idx + 1, st.entries ++ [⟨srcUrl, info.name, ⟨line⟩, info.attributes⟩]⟩
    | none => st
  else st

/-- One iteration of the parse loop on the raw line: strip, then
dispatch on the line kind. -/
def parseLine (srcUrl : String) (st : ParseState) (rawLine : String) : ParseState :=
  parseLineStripped srcUrl st (trimList rawLine.data)

/-- The parse loop of `parse_m3u_to_json` over the split lines of the
manifest, from the initial state. The downloaded-text and JSON-file
wrapping is not modelled; the produced entry mapping is the `entries`
list in insertion order. -/
def parse_m3u (srcUrl : String) (lines : List String) : List ChannelInfo :=
  (lines.foldl (parseLine srcUrl) ⟨none, 0, []⟩).entries

/-- A stripped line that the parse loop treats as a metadata line. -/
def isMetadataLine (rawLine : String) : Bool :=
  let line := trimList rawLine.data
  !line.isEmpty && ("#EXTINF".data).isPrefixOf line

/-- A stripped line that the parse loop treats as an endpoint line: it
is nonblank, does not hit the `#EXTINF` branch first, and starts with
`http`. -/
def isEndpointLine (rawLine : String) : Bool :=
  let line := trimList rawLine.data
  !line.isEmpty && !(("#EXTINF".data).isPrefixOf line) && ("http".data).isPrefixOf line

/-! ### Re-check repair pass (`src/re_check.py`) -/

/-- Python truthiness of a `stream_url` field: a missing or empty URL is
modelled as `""` and is falsy. -/
def urlPresent (u : String) : Bool := !u.isEmpty

/-- `main_playable` (`src/re_check.py` lines 36-53): the primary URL is
present and a HEAD request on it yields status 200, the probe outcome
being supplied by the oracle `ok`. -/
def mainPlayable (ok : String → Bool) (g : Group) : Bool :=
  urlPresent g.stream_url && ok g.stream_url

/-- `playable_childlist` (`src/re_check.py` lines 56-78): the childlist
members with a present URL that probes 200, in original order. -/
def playable_childlist (ok : String → Bool) (g : Group) : List Rec :=
  g.childlist.filter (fun e => urlPresent e.stream_url && ok e.stream_url)

/-- The per-group decision of `recheck_arranged_channels`
(`src/re_check.py` lines 81-104): keep the group with the playable
childlist when the primary is playable; otherwise promote the first
playable child and keep the rest as the childlist; otherwise drop the
group. -/
def recheckGroup (ok : String → Bool) (g : Group) : Option Group :=
  if mainPlayable ok g then
    some ⟨g.source_url, g.channel_name, g.stream_url, g.attributes,
          playable_childlist ok g⟩
  else
    match playable_childlist ok g with
    | [] => none
    | first :: rest =>
      some ⟨first.source_url, g.channel_name, first.stream_url,
            first.attributes, rest⟩

/-- The loop state of `recheck_arranged_channels`: the accumulated
`final_channels` mapping in insertion order, the `checked_groups`
counter, and the successive snapshots written to the output file. -/
structure RState where
  final : List (String × Group)
  checked : Nat
  writes : List (List (String × Group))
deriving DecidableEq, Repr

/-- One iteration of the re-check loop (`src/re_check.py` lines 34-112):
a dropped group leaves the state unchanged (the `continue` skips the
counter); a kept group is appended to the mapping, `checked_groups` is
incremented, and the whole mapping is written out when the counter is a
multiple of 10 or equals the total number of input groups. -/
def recheckStep (ok : String → Bool) (total : Nat) (st : RState) (p : String × Group) :
    RState :=
  match recheckGroup ok p.2 with
  | none => st
  | some g2 =>
    let fin := st.final ++ [(p.1, g2)]
    let chk := st.checked + 1
    ⟨fin, chk, if chk % 10 == 0 || chk == total then st.writes ++ [fin] else st.writes⟩

/-- The full re-check loop of `recheck_arranged_channels` over the input
mapping in insertion order. -/
def recheckRun (ok : String → Bool) (channels : List (String × Group)) : RState :=
  channels.foldl (recheckStep ok channels.length) ⟨[], 0, []⟩

/-- `recheck_arranged_channels` (`src/re_check.py`): the resulting
`final_channels` mapping in insertion order, the probe being supplied
by the oracle `ok`. -/
def recheck_arranged_channels (ok : String → Bool) (channels : List (String × Group)) :
    List (String × Group) :=
  (recheckRun ok channels).final

/-! ### Specification-side notions used to state the claims -/

/-- Class `c` has at least one member in the entry list. -/
def classNonEmpty (c : Nat) (es : List Rec) : Bool :=
  es.any (fun e => matchesClass c e.stream_url)

/-- The highest-priority (lowest-numbered) class with at least one
member among the entries, the spec's "highest non-empty priority
class". -/
def bestClass (es : List Rec) : Option Nat :=
  if classNonEmpty 1 es then some 1
  else if classNonEmpty 2 es then some 2
  else if classNonEmpty 3 es then some 3
  else if classNonEmpty 4 es then some 4
  else none

/-- The host (authority) component of a URL as the claim's wording
refers to it: the characters between the first `://` and the next `/`.
Used only to state the claim's class definition, which speaks of a
bracketed *host*; the source tests the whole URL string. -/
def hostOf (u : String) : String :=
  match afterFirst ("://".data) u.data with
  | none => ""
  | some rest => ⟨rest.takeWhile (fun ch => ch != '/')⟩

/-- The priority classes as the claim words them: bracketedness of the
*host* rather than of the whole URL. -/
def claimMatchesClass (c : Nat) (u : String) : Bool :=
  match c with
  | 1 => strStartsWith u "https://" && !(strContainsChar (hostOf u) '[')
  | 2 => strStartsWith u "http://" && !(strContainsChar (hostOf u) '[')
  | 3 => strStartsWith u "https://" && strContainsChar (hostOf u) '['
  | 4 => strStartsWith u "http://" && strContainsChar (hostOf u) '['
  | _ => false

/-- The highest non-empty priority class under the claim's host-based
class definition. -/
def claimBestClass (es : List Rec) : Option Nat :=
  if es.any (fun e => claimMatchesClass 1 e.stream_url) then some 1
  else if es.any (fun e => claimMatchesClass 2 e.stream_url) then some 2
  else if es.any (fun e => claimMatchesClass 3 e.stream_url) then some 3
  else if es.any (fun e => claimMatchesClass 4 e.stream_url) then some 4
  else none

/-! ### Concrete instances used by witnesses and counterexamples -/

/-- The spec's priority example: entries `{http-ipv4, https-ipv6,
https-ipv4}` in that order for one channel name. -/
def c1ExInput : List ChannelInfo :=
  [⟨ "s1", "N", "http://1.2.3.4/a", []⟩,
   ⟨ "s2", "N", "https://[2001:db8::1]/a", []⟩,
   ⟨ "s3", "N", "https://5.6.7.8/a", []⟩]

/-- The group built from `c1ExInput`. -/
def c1ExGroup : Group :=
  ⟨ "s1", "N", "http://1.2.3.4/a", [],
   [⟨ "s2", "https://[2001:db8::1]/a", []⟩, ⟨ "s3", "https://5.6.7.8/a", []⟩]⟩

/-- A https endpoint whose host is not bracketed but whose path contains
a bracket, together with a plain http endpoint: under the claim's
host-based classes the https entry is class 1, but the source tests the
whole URL and files it under class 3. -/
def c1CexInput : List ChannelInfo :=
  [⟨ "s1", "N", "https://good.host/file[1].m3u8", []⟩,
   ⟨ "s2", "N", "http://1.2.3.4/x", []⟩]

/-- The group built from `c1CexInput`. -/
def c1CexGroup : Group :=
  ⟨ "s1", "N", "https://good.host/file[1].m3u8", [],
   [⟨ "s2", "http://1.2.3.4/x", []⟩]⟩

/-- Three same-name entries whose third member wins the priority scan,
leaving two demoted records in the overflow. -/
def c2CexInput : List ChannelInfo :=
  [⟨ "s1", "N", "http://p", []⟩,
   ⟨ "s2", "N", "http://a", []⟩,
   ⟨ "s3", "N", "https://b", []⟩]

/-- The group built from `c2CexInput`. -/
def c2CexGroup : Group :=
  ⟨ "s1", "N", "http://p", [], [⟨ "s2", "http://a", []⟩, ⟨ "s3", "https://b", []⟩]⟩

/-- Two identical input records for the same channel name: the first
becomes the primary, the second lands in the childlist, and no swap
happens because the primary already wins class 1. -/
def c5CexInput : List ChannelInfo :=
  [⟨ "s1", "N", "https://a", []⟩, ⟨ "s1", "N", "https://a", []⟩]

/-- A group whose two distinct childlist records share the stream URL
that wins the priority scan. -/
def c10ExInput : List ChannelInfo :=
  [⟨ "s1", "N", "http://p", []⟩,
   ⟨ "sb1", "N", "https://b", []⟩,
   ⟨ "sb2", "N", "https://b", []⟩]

/-- The group built from `c10ExInput`. -/
def c10ExGroup : Group :=
  ⟨ "s1", "N", "http://p", [], [⟨ "sb1", "https://b", []⟩, ⟨ "sb2", "https://b", []⟩]⟩

/-- The spec's promotion example: primary unreachable, childlist
`[A(unreachable), B(reachable), C(reachable)]`. -/
def c3ExGroup : Group :=
  ⟨ "s", "N", "http://p", [],
   [⟨ "sa", "http://a", []⟩, ⟨ "sb", "http://b", []⟩, ⟨ "sc", "http://c", []⟩]⟩

/-- Probe outcomes for `c3ExGroup`: only B and C answer 200. -/
def c3ExOracle : String → Bool := fun u => u == "http://b" || u == "http://c"

/-- A single group none of whose members is reachable. -/
def c4ExInput : List (String × Group) :=
  [("A", ⟨ "s", "A", "http://dead", [], [⟨ "s", "http://dead2", []⟩]⟩)]

/-- Probe outcomes for `c4ExInput`: nothing answers 200. -/
def c4ExOracle : String → Bool := fun _ => false

/-- Failing input for the incremental-save behaviour: a mapping of two
groups of which the first is entirely unreachable (so it is dropped and
the kept-group counter never reaches the input size). -/
def c8FailInput : List (String × Group) :=
  [("A", ⟨ "s", "A", "http://dead", [], []⟩),
   ("B", ⟨ "s", "B", "http://b", [], []⟩)]

/-- Probe outcomes for `c8FailInput`: only B's endpoint answers 200. -/
def c8FailOracle : String → Bool := fun u => u == "http://b"

/-! ## Helper lemmas -/

theorem scanFirst_eq_none {p : Rec → Bool} :
    ∀ {es : List Rec}, scanFirst p es = none ↔ ∀ e ∈ es, p e = false := by
  intro es
  induction es with
  | nil => simp [scanFirst]
  | cons e es ih =>
    cases hp : p e with
    | true => simp [scanFirst, hp]
    | false => simp [scanFirst, hp, Option.map_eq_none', ih]

theorem scanFirst_isSome_of_any {p : Rec → Bool} {es : List Rec}
    (h : es.any p = true) : ∃ q, scanFirst p es = some q := by
  cases hs : scanFirst p es with
  | some q => exact ⟨q, rfl⟩
  | none =>
    rw [List.any_eq_true] at h
    obtain ⟨e, he, hpe⟩ := h
    have := scanFirst_eq_none.mp hs e he
    rw [this] at hpe
    cases hpe

theorem scanFirst_find? {p : Rec → Bool} :
    ∀ {es : List Rec} {q : Nat × Rec}, scanFirst p es = some q → es.find? p = some q.2 := by
  intro es
  induction es with
  | nil => intro q h; cases h
  | cons e es ih =>
    intro q h
    cases hp : p e with
    | true =>
      rw [scanFirst, hp] at h
      simp at h
      simp [List.find?, hp, ← h]
    | false =>
      rw [scanFirst, hp] at h
      simp only [Bool.false_eq_true, if_false, Option.map_eq_some'] at h
      obtain ⟨q', hq', rfl⟩ := h
      simp [List.find?, hp, ih hq']

theorem scanFirst_zero {p : Rec → Bool} {e : Rec} {es : List Rec} {b : Rec}
    (h : scanFirst p (e :: es) = some (0, b)) : b = e ∧ p e = true := by
  cases hp : p e with
  | true =>
    rw [scanFirst, hp] at h
    simp at h
    exact ⟨h.symm, rfl⟩
  | false =>
    rw [scanFirst, hp] at h
    simp only [Bool.false_eq_true, if_false, Option.map_eq_some'] at h
    obtain ⟨q', _, hq⟩ := h
    cases hq

theorem scanFirst_eq_none_of_not_any (p : Rec → Bool) (es : List Rec)
    (h : ¬ (es.any p = true)) : scanFirst p es = none := by
  apply scanFirst_eq_none.mpr
  intro e he
  cases hpe : p e with
  | false => rfl
  | true => exact absurd (List.any_eq_true.mpr ⟨e, he, hpe⟩) h

theorem bestEntry_of_bestClass {es : List Rec} {c : Nat}
    (hc : bestClass es = some c) :
    ∃ q, scanFirst (fun e => matchesClass c e.stream_url) es = some q ∧
      bestEntry es = some q := by
  unfold bestClass at hc
  split_ifs at hc with h1 h2 h3 h4
  · cases hc
    obtain ⟨q, hq⟩ := scanFirst_isSome_of_any h1
    exact ⟨q, hq, by unfold bestEntry; rw [hq]; rfl⟩
  · cases hc
    obtain ⟨q, hq⟩ := scanFirst_isSome_of_any h2
    have hn1 := scanFirst_eq_none_of_not_any (fun e => matchesClass 1 e.stream_url)
      es (by simpa [classNonEmpty] using h1)
    exact ⟨q, hq, by unfold bestEntry; rw [hn1, hq]; rfl⟩
  · cases hc
    obtain ⟨q, hq⟩ := scanFirst_isSome_of_any h3
    have hn1 := scanFirst_eq_none_of_not_any (fun e => matchesClass 1 e.stream_url)
      es (by simpa [classNonEmpty] using h1)
    have hn2 := scanFirst_eq_none_of_not_any (fun e => matchesClass 2 e.stream_url)
      es (by simpa [classNonEmpty] using h2)
    exact ⟨q, hq, by unfold bestEntry; rw [hn1, hn2, hq]; rfl⟩
  · cases hc
    obtain ⟨q, hq⟩ := scanFirst_isSome_of_any h4
    have hn1 := scanFirst_eq_none_of_not_any (fun e => matchesClass 1 e.stream_url)
      es (by simpa [classNonEmpty] using h1)
    have hn2 := scanFirst_eq_none_of_not_any (fun e => matchesClass 2 e.stream_url)
      es (by simpa [classNonEmpty] using h2)
    have hn3 := scanFirst_eq_none_of_not_any (fun e => matchesClass 3 e.stream_url)
      es (by simpa [classNonEmpty] using h3)
    exact ⟨q, hq, by unfold bestEntry; rw [hn1, hn2, hn3, hq]; rfl⟩

/-! ## Claim C1 -/

/-- C1 (amended): for every channel group built by `arrange_channels`,
when some priority class is non-empty, the selected primary is the
first entry — in original first-seen order, the prior primary slot
scanned before the childlist — whose endpoint matches the highest
non-empty priority class, where bracketedness is judged by the presence
of `[` anywhere in the endpoint URL (as the source tests it), class 1
being https without bracket, class 2 http without bracket, class 3
https with bracket, class 4 http with bracket. -/
theorem c1_primary_is_first_of_best_class
    (cis : List ChannelInfo) (g : Group) (c : Nat) (best : Rec)
    (_hg : g ∈ groupChannels cis)
    (hc : bestClass (allEntries g) = some c)
    (hf : (allEntries g).find? (fun e => matchesClass c e.stream_url) = some best) :
    (arrangeGroup g).primaryRec = best := by
  obtain ⟨⟨i, e⟩, hq, hbe⟩ := bestEntry_of_bestClass hc
  have hfind := scanFirst_find? hq
  rw [hfind] at hf
  injection hf with hbest
  subst hbest
  cases i with
  | zero =>
    have hq' : scanFirst (fun e => matchesClass c e.stream_url)
        (g.primaryRec :: g.childlist) = some (0, e) := hq
    obtain ⟨he, -⟩ := scanFirst_zero hq'
    subst he
    unfold arrangeGroup
    rw [hbe]
  | succ n =>
    unfold arrangeGroup
    rw [hbe]
    cases e
    rfl

/-- Witness for C1: the spec's priority example `{http-ipv4, https-ipv6,
https-ipv4}` groups into `c1ExGroup`, and the theorem applied there
selects the https-ipv4 entry as primary. -/
theorem c1_witness :
    groupChannels c1ExInput = [c1ExGroup] ∧
    (arrangeGroup c1ExGroup).primaryRec = ⟨ "s3", "https://5.6.7.8/a", []⟩ :=
  ⟨by decide,
   c1_primary_is_first_of_best_class c1ExInput c1ExGroup 1
     ⟨ "s3", "https://5.6.7.8/a", []⟩ (by decide) (by decide) (by decide)⟩

/-- Counterexample to C1 as stated: with the claim's host-based class
definition, the https endpoint `https://good.host/file[1].m3u8` (host
not bracketed, bracket only in the path) is the unique class-1 entry and
would have to become primary; the source tests the whole URL for `[`,
files it under class 3, and selects the plain http entry instead. -/
theorem c1_counterexample :
    groupChannels c1CexInput = [c1CexGroup] ∧
    claimBestClass (allEntries c1CexGroup) = some 1 ∧
    (allEntries c1CexGroup).find? (fun e => claimMatchesClass 1 e.stream_url) =
      some ⟨ "s1", "https://good.host/file[1].m3u8", []⟩ ∧
    (arrangeGroup c1CexGroup).primaryRec = ⟨ "s2", "http://1.2.3.4/x", []⟩ ∧
    (⟨ "s2", "http://1.2.3.4/x", []⟩ : Rec) ≠
      ⟨ "s1", "https://good.host/file[1].m3u8", []⟩ := by
  exact ⟨by decide, by decide, by decide, by decide, by decide⟩

/-! ## Claim C2 -/

/-- C2 (amended): after a promotion, the overflow consists of the other
childlist members in their original order with every record sharing the
promoted entry's stream URL removed, and the demoted previous primary
appended at the tail (omitted when its stream URL equals the promoted
one); when no entry is promoted the group, hence its overflow, is
unchanged. -/
theorem c2_overflow_after_promotion
    (cis : List ChannelInfo) (g : Group)
    (_hg : g ∈ groupChannels cis) :
    (∀ i best, bestEntry (allEntries g) = some (i + 1, best) →
      (arrangeGroup g).childlist =
        g.childlist.filter (fun e => e.stream_url != best.stream_url) ++
        (if g.stream_url = best.stream_url then [] else [g.primaryRec])) ∧
    (bestEntry (allEntries g) = none → arrangeGroup g = g) ∧
    (∀ best, bestEntry (allEntries g) = some (0, best) → arrangeGroup g = g) := by
  refine ⟨?_, ?_, ?_⟩
  · intro i best hbe
    unfold arrangeGroup
    rw [hbe]
    simp only [List.filter_append]
    congr 1
    by_cases hu : g.stream_url = best.stream_url
    · simp [List.filter_cons, Group.primaryRec, hu]
    · simp [List.filter_cons, Group.primaryRec, hu]
  · intro hbe
    unfold arrangeGroup
    rw [hbe]
  · intro best hbe
    unfold arrangeGroup
    rw [hbe]

/-- Witness for C2 (amended): applied to the concrete promoted group
`c2CexGroup`, whose class-1 winner sits at position 2. -/
theorem c2_witness :
    (arrangeGroup c2CexGroup).childlist =
      c2CexGroup.childlist.filter
        (fun e => e.stream_url != (⟨ "s3", "https://b", []⟩ : Rec).stream_url) ++
      (if c2CexGroup.stream_url = (⟨ "s3", "https://b", []⟩ : Rec).stream_url then []
       else [c2CexGroup.primaryRec]) :=
  (c2_overflow_after_promotion c2CexInput c2CexGroup (by decide)).1 1
    ⟨ "s3", "https://b", []⟩ (by decide)

/-- Counterexample to C2 as stated: in the group built from
`c2CexInput` the entry `https://b` (position 2) is promoted; the claim
predicts the overflow `[http://p, http://a]` (original first-seen order
minus the promoted entry), but the code appends the demoted primary at
the tail and produces `[http://a, http://p]`. -/
theorem c2_counterexample :
    groupChannels c2CexInput = [c2CexGroup] ∧
    bestEntry (allEntries c2CexGroup) = some (2, ⟨ "s3", "https://b", []⟩) ∧
    (arrangeGroup c2CexGroup).childlist =
      [⟨ "s2", "http://a", []⟩, ⟨ "s1", "http://p", []⟩] ∧
    (allEntries c2CexGroup).eraseIdx 2 =
      [⟨ "s1", "http://p", []⟩, ⟨ "s2", "http://a", []⟩] ∧
    (arrangeGroup c2CexGroup).childlist ≠ (allEntries c2CexGroup).eraseIdx 2 := by
  exact ⟨by decide, by decide, by decide, by decide, by decide⟩

/-! ## Claim C5 -/

/-- C5 (amended): for every group in which a promotion occurred, no
childlist member of the arranged group carries the (new) primary's
stream URL, so in particular the primary record does not reappear in
the overflow; the guarantee does not extend to groups whose primary was
already the winner. -/
theorem c5_no_primary_url_in_overflow_after_promotion
    (cis : List ChannelInfo) (g : Group) (i : Nat) (best e : Rec)
    (_hg : g ∈ groupChannels cis)
    (hbe : bestEntry (allEntries g) = some (i + 1, best))
    (he : e ∈ (arrangeGroup g).childlist) :
    e.stream_url ≠ (arrangeGroup g).stream_url := by
  unfold arrangeGroup at he ⊢
  rw [hbe] at he ⊢
  simp only [List.mem_filter] at he
  exact bne_iff_ne.mp he.2

/-- Witness for C5 (amended): in the arranged `c10ExGroup` (promotion of
`https://b`), the demoted primary record in the overflow has a URL
different from the new primary's. -/
theorem c5_witness :
    (⟨ "s1", "http://p", []⟩ : Rec).stream_url ≠ (arrangeGroup c10ExGroup).stream_url :=
  c5_no_primary_url_in_overflow_after_promotion c10ExInput c10ExGroup 0
    ⟨ "sb1", "https://b", []⟩ ⟨ "s1", "http://p", []⟩ (by decide) (by decide) (by decide)

/-- Counterexample to C5 as stated: two identical input records for one
name leave the duplicate in the childlist (the winner is the primary
slot itself, so no swap and no filtering happens), and the resulting
group's primary record is literally a member of its childlist. -/
theorem c5_counterexample :
    arrange_channels c5CexInput =
      [⟨ "s1", "N", "https://a", [], [⟨ "s1", "https://a", []⟩]⟩] ∧
    (⟨ "s1", "N", "https://a", [], [⟨ "s1", "https://a", []⟩]⟩ : Group).primaryRec ∈
      (⟨ "s1", "N", "https://a", [], [⟨ "s1", "https://a", []⟩]⟩ : Group).childlist := by
  exact ⟨by decide, by decide⟩

/-! ## Claim C10 -/

/-- C10: when a better entry is promoted to primary, every childlist
record whose stream URL equals the promoted entry's stream URL is
removed from the childlist — including distinct alternate records that
merely share the URL. -/
theorem c10_same_url_children_removed
    (cis : List ChannelInfo) (g : Group) (i : Nat) (best e : Rec)
    (_hg : g ∈ groupChannels cis)
    (hbe : bestEntry (allEntries g) = some (i + 1, best))
    (_he : e ∈ g.childlist) (hu : e.stream_url = best.stream_url) :
    e ∉ (arrangeGroup g).childlist := by
  unfold arrangeGroup
  rw [hbe]
  intro hmem
  simp only [List.mem_filter] at hmem
  exact bne_iff_ne.mp hmem.2 hu

/-- Witness for C10: in `c10ExGroup` the record `⟨sb2, https://b⟩` is a
distinct alternate sharing the promoted entry's URL, and it is gone
from the arranged childlist. -/
theorem c10_witness :
    (⟨ "sb2", "https://b", []⟩ : Rec) ∉ (arrangeGroup c10ExGroup).childlist :=
  c10_same_url_children_removed c10ExInput c10ExGroup 0
    ⟨ "sb1", "https://b", []⟩ ⟨ "sb2", "https://b", []⟩
    (by decide) (by decide) (by decide) (by decide)

/-! ## Re-check lemmas -/

theorem recheck_foldl_final (ok : String → Bool) (total : Nat) :
    ∀ (ch : List (String × Group)) (st : RState),
      (ch.foldl (recheckStep ok total) st).final =
        st.final ++ ch.filterMap
          (fun p => (recheckGroup ok p.2).map (fun g2 => (p.1, g2))) := by
  intro ch
  induction ch with
  | nil => intro st; simp
  | cons p ch ih =>
    intro st
    rw [List.foldl_cons, ih]
    cases hr : recheckGroup ok p.2 with
    | none => simp [recheckStep, hr]
    | some g2 => simp [recheckStep, hr]

theorem recheck_final_eq (ok : String → Bool) (channels : List (String × Group)) :
    recheck_arranged_channels ok channels =
      channels.filterMap
        (fun p => (recheckGroup ok p.2).map (fun g2 => (p.1, g2))) := by
  unfold recheck_arranged_channels recheckRun
  rw [recheck_foldl_final]
  rfl

theorem key_unique {α β : Type} {l : List (α × β)}
    (h : (l.map Prod.fst).Nodup) {k : α} {b b' : β}
    (hb : (k, b) ∈ l) (hb' : (k, b') ∈ l) : b = b' := by
  induction l with
  | nil => cases hb
  | cons p l ih =>
    rw [List.map_cons, List.nodup_cons] at h
    rcases List.mem_cons.mp hb with h1 | h1
    · rcases List.mem_cons.mp hb' with h2 | h2
      · rw [← h1] at h2
        injection h2 with _ hbb
        exact hbb.symm
      · exfalso
        apply h.1
        rw [← h1]
        exact List.mem_map.mpr ⟨(k, b'), h2, rfl⟩
    · rcases List.mem_cons.mp hb' with h2 | h2
      · exfalso
        apply h.1
        rw [← h2]
        exact List.mem_map.mpr ⟨(k, b), h1, rfl⟩
      · exact ih h.2 h1 h2

/-! ## Claim C3 -/

/-- C3: when a group's primary probes unreachable but its childlist has
reachable members, the output mapping carries, under the same name, a
group whose primary record is the first reachable childlist member (in
original order) and whose childlist is the remaining reachable members,
order preserved. -/
theorem c3_promotion (ok : String → Bool) (channels : List (String × Group))
    (name : String) (g : Group) (first : Rec) (rest : List Rec)
    (hm : (name, g) ∈ channels)
    (hmain : mainPlayable ok g = false)
    (hp : playable_childlist ok g = first :: rest) :
    (name, ⟨first.source_url, g.channel_name, first.stream_url,
            first.attributes, rest⟩) ∈
      recheck_arranged_channels ok channels := by
  rw [recheck_final_eq]
  apply List.mem_filterMap.mpr
  refine ⟨(name, g), hm, ?_⟩
  have hr : recheckGroup ok g =
      some ⟨first.source_url, g.channel_name, first.stream_url,
            first.attributes, rest⟩ := by
    unfold recheckGroup
    rw [hmain, hp]
    rfl
  rw [hr]
  rfl

/-- Witness for C3: the spec's promotion example, primary unreachable
and childlist `[A(unreachable), B(reachable), C(reachable)]`, yields
primary `B` and childlist `[C]` in the output mapping. -/
theorem c3_witness :
    ("N", (⟨ "sb", "N", "http://b", [], [⟨ "sc", "http://c", []⟩]⟩ : Group)) ∈
      recheck_arranged_channels c3ExOracle [("N", c3ExGroup)] :=
  c3_promotion c3ExOracle [("N", c3ExGroup)] "N" c3ExGroup
    ⟨ "sb", "http://b", []⟩ [⟨ "sc", "http://c", []⟩]
    (by decide) (by decide) (by decide)

/-! ## Claim C4 -/

/-- C4: a group whose primary and childlist members all probe
unreachable is absent from the output mapping (its name, keys being
unique in the input dict, maps to nothing), and conversely every
emitted group descends from an input group with at least one member
that probed reachable. -/
theorem c4_unreachable_groups_removed (ok : String → Bool)
    (channels : List (String × Group))
    (hnd : (channels.map Prod.fst).Nodup) :
    (∀ name g, (name, g) ∈ channels → mainPlayable ok g = false →
        playable_childlist ok g = [] →
        ∀ g2, (name, g2) ∉ recheck_arranged_channels ok channels) ∧
    (∀ name g2, (name, g2) ∈ recheck_arranged_channels ok channels →
        ∃ g, (name, g) ∈ channels ∧ recheckGroup ok g = some g2 ∧
          (mainPlayable ok g = true ∨ playable_childlist ok g ≠ [])) := by
  constructor
  · intro name g hm hmain hp g2 hmem
    rw [recheck_final_eq] at hmem
    obtain ⟨⟨name0, g0⟩, hm0, hmap⟩ := List.mem_filterMap.mp hmem
    simp only [Option.map_eq_some'] at hmap
    obtain ⟨gg, hr, heq⟩ := hmap
    injection heq with hn hg2
    subst hn
    have hg0 : g0 = g := key_unique hnd hm0 hm
    rw [hg0] at hr
    have hnone : recheckGroup ok g = none := by
      unfold recheckGroup
      rw [hmain, hp]
      rfl
    rw [hnone] at hr
    cases hr
  · intro name g2 hmem
    rw [recheck_final_eq] at hmem
    obtain ⟨⟨name0, g0⟩, hm0, hmap⟩ := List.mem_filterMap.mp hmem
    simp only [Option.map_eq_some'] at hmap
    obtain ⟨gg, hr, heq⟩ := hmap
    injection heq with hn hg2
    subst hn
    subst hg2
    refine ⟨g0, hm0, hr, ?_⟩
    cases hmain : mainPlayable ok g0 with
    | true => exact Or.inl rfl
    | false =>
      cases hp : playable_childlist ok g0 with
      | nil =>
        exfalso
        have hnone : recheckGroup ok g0 = none := by
          unfold recheckGroup
          rw [hmain, hp]
          rfl
        rw [hnone] at hr
        cases hr
      | cons a l =>
        exact Or.inr (by simp [hp])

/-- Witness for C4: a single all-unreachable group is absent from the
output mapping. -/
theorem c4_witness :
    ("A", (⟨ "s", "A", "http://dead", [], [⟨ "s", "http://dead2", []⟩]⟩ : Group)) ∉
      recheck_arranged_channels c4ExOracle c4ExInput :=
  (c4_unreachable_groups_removed c4ExOracle c4ExInput (by decide)).1 "A"
    ⟨ "s", "A", "http://dead", [], [⟨ "s", "http://dead2", []⟩]⟩
    (by decide) (by decide) (by decide)
    ⟨ "s", "A", "http://dead", [], [⟨ "s", "http://dead2", []⟩]⟩

/-! ## Claim C8 -/

/-- C8: evaluation of the re-check loop at the failing input. The input
mapping has two groups; the first is dropped as fully unreachable, so
the kept-group counter ends at 1: it never hits a multiple of 10 nor
the input size 2, and the loop performs no write at all even though the
run completes with a non-empty final mapping. This contradicts the
claim that the accumulated result is written after the last group has
been processed. -/
theorem c8_no_write_on_failing_input :
    (recheckRun c8FailOracle c8FailInput).writes = [] ∧
    (recheckRun c8FailOracle c8FailInput).final =
      [("B", ⟨ "s", "B", "http://b", [], []⟩)] ∧
    (recheckRun c8FailOracle c8FailInput).checked = 1 := by
  exact ⟨by decide, by decide, by decide⟩

/-! ## Parser lemmas -/

theorem takeWhile_append_all {α : Type} {p : α → Bool} :
    ∀ {xs ys : List α}, (∀ x ∈ xs, p x = true) →
      (xs ++ ys).takeWhile p = xs ++ ys.takeWhile p := by
  intro xs
  induction xs with
  | nil => intro ys _; rfl
  | cons x xs ih =>
    intro ys h
    have hx := h x (List.mem_cons_self x xs)
    simp only [List.cons_append, List.takeWhile_cons, hx, if_true]
    rw [ih (fun a ha => h a (List.mem_cons_of_mem x ha))]

theorem takeWhile_append_stop {α : Type} {p : α → Bool} :
    ∀ {xs : List α} (ys : List α), (∃ x ∈ xs, p x = false) →
      (xs ++ ys).takeWhile p = xs.takeWhile p := by
  intro xs
  induction xs with
  | nil =>
    intro ys h
    obtain ⟨x, hx, _⟩ := h
    cases hx
  | cons x xs ih =>
    intro ys h
    cases hx : p x with
    | false => simp [List.takeWhile_cons, hx]
    | true =>
      simp only [List.cons_append, List.takeWhile_cons, hx, if_true]
      congr 1
      apply ih
      obtain ⟨a, ha, hpa⟩ := h
      rcases List.mem_cons.mp ha with rfl | ha2
      · rw [hx] at hpa
        cases hpa
      · exact ⟨a, ha2, hpa⟩

theorem afterLastComma_eq :
    ∀ l : List Char,
      afterLastComma l =
        if (',') ∈ l then some ((l.reverse.takeWhile (fun c => c != ',')).reverse)
        else none := by
  intro l
  induction l with
  | nil => rfl
  | cons c cs ih =>
    by_cases hc : (',') ∈ cs
    · have ih2 : afterLastComma cs =
          some ((cs.reverse.takeWhile (fun c => c != ',')).reverse) := by
        rw [ih, if_pos hc]
      rw [show afterLastComma (c :: cs) =
            (match afterLastComma cs with
             | some r => some r
             | none => if c = ',' then some cs else none) from rfl,
          ih2, if_pos (List.mem_cons_of_mem c hc), List.reverse_cons,
          takeWhile_append_stop [c] ⟨(','), List.mem_reverse.mpr hc, by decide⟩]
    · have ih2 : afterLastComma cs = none := by rw [ih, if_neg hc]
      rw [show afterLastComma (c :: cs) =
            (match afterLastComma cs with
             | some r => some r
             | none => if c = ',' then some cs else none) from rfl,
          ih2]
      by_cases hcc : c = ','
      · subst hcc
        rw [if_pos rfl, if_pos (List.mem_cons_self _ cs), List.reverse_cons,
            takeWhile_append_all (fun a ha => bne_iff_ne.mpr (by
              intro heq
              subst heq
              exact hc (List.mem_reverse.mp ha)))]
        simp
      · rw [if_neg hcc, if_neg (fun h => by
          rcases List.mem_cons.mp h with h1 | h1
          · exact hcc h1.symm
          · exact hc h1)]

/-! ## Claim C6 -/

/-- C6 (amended): the extracted channel name is the segment after the
last comma, stripped of surrounding whitespace, whenever the line
contains a comma and that segment is nonempty; when the line has no
comma, or nothing follows its last comma, the sentinel `"未知频道"`
("unknown channel") is returned instead. -/
theorem c6_name_after_last_comma (line : String) :
    extract_channel_name line =
      if (',') ∈ line.data ∧ (line.data.reverse.takeWhile (fun c => c != ',')).reverse ≠ []
      then String.mk (trimList ((line.data.reverse.takeWhile (fun c => c != ',')).reverse))
      else "未知频道" := by
  unfold extract_channel_name
  rw [afterLastComma_eq]
  by_cases hc : (',') ∈ line.data
  · rw [if_pos hc]
    by_cases hseg : (line.data.reverse.takeWhile (fun c => c != ',')).reverse = []
    · rw [if_neg (fun h => h.2 hseg)]
      simp [hseg]
    · rw [if_pos ⟨hc, hseg⟩]
      simp [List.isEmpty_iff, hseg]
  · rw [if_neg hc, if_neg (fun h => hc h.1)]

/-- Witness for C6 (amended): evaluating the theorem's equation at a
line with a name, a line without a comma, and a line ending in a
comma. -/
theorem c6_witness :
    extract_channel_name "#EXTINF:-1 tvg-id=\"x\", CCTV 1 " = "CCTV 1" ∧
    extract_channel_name "#EXTINF:-1" = "未知频道" ∧
    extract_channel_name "#EXTINF:-1,abc," = "未知频道" :=
  ⟨(c6_name_after_last_comma "#EXTINF:-1 tvg-id=\"x\", CCTV 1 ").trans (by decide),
   (c6_name_after_last_comma "#EXTINF:-1").trans (by decide),
   (c6_name_after_last_comma "#EXTINF:-1,abc,").trans (by decide)⟩

/-- Counterexample to C6 as stated: on a comma-less metadata line the
code returns the sentinel `"未知频道"`, not the claimed `"Unknown"`;
and on a line ending in a comma (empty segment after the last comma)
the code also returns the sentinel rather than the empty trimmed
substring. -/
theorem c6_counterexample :
    extract_channel_name "#EXTINF:-1" = "未知频道" ∧
    ("未知频道" : String) ≠ "Unknown" ∧
    extract_channel_name "#EXTINF:-1,abc," = "未知频道" ∧
    ("未知频道" : String) ≠ "" := by
  exact ⟨by decide, by decide, by decide, by decide⟩

/-! ## Claim C7 -/

/-- C7: the metadata-then-endpoint pairing of the parse loop. A
metadata line emits no entry and (re)sets the pending info — so a
metadata line followed by another metadata line, or by end of input,
contributes no entry; an endpoint line with a pending info emits
exactly one entry and clears the pending state; an endpoint line with
no pending info leaves the state unchanged; and no line other than an
endpoint line ever extends the entry list. -/
theorem c7_metadata_endpoint_pairing (src : String) (st : ParseState) (raw : String) :
    (isMetadataLine raw = true →
      (parseLine src st raw).entries = st.entries ∧
      (parseLine src st raw).pending =
        some ⟨extract_channel_name ⟨trimList raw.data⟩,
              extract_attributes ⟨trimList raw.data⟩⟩) ∧
    (isEndpointLine raw = true → ∀ info, st.pending = some info →
      (parseLine src st raw).entries =
        st.entries ++ [⟨src, info.name, ⟨trimList raw.data⟩, info.attributes⟩] ∧
      (parseLine src st raw).pending = none) ∧
    (isEndpointLine raw = true → st.pending = none → parseLine src st raw = st) ∧
    (isEndpointLine raw = false → (parseLine src st raw).entries = st.entries) := by
  refine ⟨?_, ?_, ?_, ?_⟩
  · intro hm
    unfold isMetadataLine at hm
    simp only [Bool.and_eq_true, Bool.not_eq_true'] at hm
    unfold parseLine parseLineStripped
    rw [hm.1, hm.2]
    simp
  · intro hend info hpend
    unfold isEndpointLine at hend
    simp only [Bool.and_eq_true, Bool.not_eq_true'] at hend
    unfold parseLine parseLineStripped
    rw [hend.1.1, hend.1.2, hend.2, hpend]
    simp
  · intro hend hpend
    unfold isEndpointLine at hend
    simp only [Bool.and_eq_true, Bool.not_eq_true'] at hend
    unfold parseLine parseLineStripped
    rw [hend.1.1, hend.1.2, hend.2, hpend]
    simp
  · intro hend
    unfold parseLine parseLineStripped
    cases h0 : (trimList raw.data).isEmpty with
    | true => simp
    | false =>
      cases h1 : ("#EXTINF".data).isPrefixOf (trimList raw.data) with
      | true => simp
      | false =>
        cases h2 : ("http".data).isPrefixOf (trimList raw.data) with
        | true =>
          exfalso
          have hT : isEndpointLine raw = true := by
            show (!(trimList raw.data).isEmpty &&
              !(("#EXTINF".data).isPrefixOf (trimList raw.data)) &&
              ("http".data).isPrefixOf (trimList raw.data)) = true
            rw [h0, h1, h2]
            rfl
          rw [hT] at hend
          cases hend
        | false => simp

/-- Witness for C7: a concrete metadata line sets the pending info; a
concrete endpoint line with pending info emits exactly one entry; a
concrete endpoint line with no pending info is ignored. -/
theorem c7_witness :
    (parseLine "u" ⟨none, 0, []⟩ " #EXTINF:-1,A").pending = some ⟨ "A", []⟩ ∧
    (parseLine "u" ⟨some ⟨ "A", []⟩, 0, []⟩ "http://x").entries =
      [⟨ "u", "A", "http://x", []⟩] ∧
    parseLine "u" ⟨none, 0, []⟩ "http://x" = ⟨none, 0, []⟩ :=
  ⟨((c7_metadata_endpoint_pairing "u" ⟨none, 0, []⟩ " #EXTINF:-1,A").1
      (by decide)).2.trans (by decide),
   (((c7_metadata_endpoint_pairing "u" ⟨some ⟨ "A", []⟩, 0, []⟩ "http://x").2.1
      (by decide) ⟨ "A", []⟩ rfl).1).trans (by decide),
   (c7_metadata_endpoint_pairing "u" ⟨none, 0, []⟩ "http://x").2.2.1
      (by decide) rfl⟩

/-! ## Claim C9 -/

/-- C9 (amended): every stored attribute pair comes from one of the
four recognized keys and is exactly the first `key="value"` token of
the line for that key; keys whose token is absent from the line are
omitted from the map. The value stored is the quoted text verbatim —
the `[^"]*` pattern also admits the empty string, so a present token
with an empty quoted value is stored as an empty string. -/
theorem c9_attribute_extraction (line : String) :
    (∀ k v, (k, v) ∈ extract_attributes line →
      k ∈ attrKeys ∧ searchAttr k line = some v) ∧
    (∀ k, k ∈ attrKeys → searchAttr k line = none →
      ∀ v, (k, v) ∉ extract_attributes line) := by
  constructor
  · intro k v hkv
    unfold extract_attributes at hkv
    obtain ⟨k0, hk0, hmap⟩ := List.mem_filterMap.mp hkv
    simp only [Option.map_eq_some'] at hmap
    obtain ⟨v0, hs, heq⟩ := hmap
    injection heq with h1 h2
    subst h1
    subst h2
    exact ⟨hk0, hs⟩
  · intro k hk hnone v hkv
    unfold extract_attributes at hkv
    obtain ⟨k0, hk0, hmap⟩ := List.mem_filterMap.mp hkv
    simp only [Option.map_eq_some'] at hmap
    obtain ⟨v0, hs, heq⟩ := hmap
    injection heq with h1 h2
    subst h1
    rw [hnone] at hs
    cases hs

/-- Witness for C9 (amended): on a concrete line the stored pair
`(tvg-id, 1)` is a recognized key whose token is present. -/
theorem c9_witness :
    ("tvg-id" : String) ∈ attrKeys ∧
    searchAttr "tvg-id" "#EXTINF:-1 tvg-id=\"1\" group-title=\"News\",Chan" = some "1" :=
  (c9_attribute_extraction "#EXTINF:-1 tvg-id=\"1\" group-title=\"News\",Chan").1
    "tvg-id" "1" (by decide)

/-- Counterexample to C9 as stated: a metadata line carrying
`tvg-id=""` stores the attribute with an empty string value — the
`[^"]*` pattern matches the empty quoted value, contradicting the
claim that no attribute is ever stored as an empty string. -/
theorem c9_counterexample :
    ("tvg-id", "") ∈ extract_attributes "#EXTINF:-1 tvg-id=\"\",Chan" ∧
    extract_attributes "#EXTINF:-1 tvg-id=\"\",Chan" = [("tvg-id", "")] := by
  exact ⟨by decide, by decide⟩

end IPTV
